import Mathlib

/-
Verification of the blackroad-gateway core against its specification.

The TypeScript sources are shallowly embedded:
- pure functions become Lean functions;
- stateful classes become explicit state passing (the in-memory stores are
  lists in insertion order, matching JS `Map`/array iteration order);
- external effects (clocks, the network, Web Crypto, KV namespaces) become
  explicit parameters;
- JS numbers on the code paths modelled here are integers, embedded as `Nat`;
- SHA-256 (node `crypto` / Web Crypto) is implemented executably below,
  words as `Nat` reduced `% 2^32`.
-/

/- ───────────────────────── SHA-256 (FIPS 180-4) ─────────────────────────
Executable SHA-256 over byte lists; hex digests match node's
`createHash("sha256").update(s).digest("hex")`. -/

namespace SHA256

def M32 : Nat := 4294967296

/-- The 64 round constants of FIPS 180-4 §4.2.2, in decimal. -/
def K : List Nat :=
  [1116352408, 1899447441, 3049323471, 3921009573, 961987163, 1508970993,
   2453635748, 2870763221, 3624381080, 310598401, 607225278, 1426881987,
   1925078388, 2162078206, 2614888103, 3248222580, 3835390401, 4022224774,
   264347078, 604807628, 770255983, 1249150122, 1555081692, 1996064986,
   2554220882, 2821834349, 2952996808, 3210313671, 3336571891, 3584528711,
   113926993, 338241895, 666307205, 773529912, 1294757372, 1396182291,
   1695183700, 1986661051, 2177026350, 2456956037, 2730485921, 2820302411,
   3259730800, 3345764771, 3516065817, 3600352804, 4094571909, 275423344,
   430227734, 506948616, 659060556, 883997877, 958139571, 1322822218,
   1537002063, 1747873779, 1955562222, 2024104815, 2227730452, 2361852424,
   2428436474, 2756734187, 3204031479, 3329325298]

/-- The initial hash state of FIPS 180-4 §5.3.3, in decimal. -/
def H0 : List Nat :=
  [1779033703, 3144134277, 1013904242, 2773480762,
   1359893119, 2600822924, 528734635, 1541459225]

def rotr (n x : Nat) : Nat := ((x >>> n) + ((x <<< (32 - n)) % M32)) % M32

def bsig0 (x : Nat) : Nat := (rotr 2 x) ^^^ (rotr 13 x) ^^^ (rotr 22 x)

def bsig1 (x : Nat) : Nat := (rotr 6 x) ^^^ (rotr 11 x) ^^^ (rotr 25 x)

def ssig0 (x : Nat) : Nat := (rotr 7 x) ^^^ (rotr 18 x) ^^^ (x >>> 3)

def ssig1 (x : Nat) : Nat := (rotr 17 x) ^^^ (rotr 19 x) ^^^ (x >>> 10)

def ch (x y z : Nat) : Nat := (x &&& y) ^^^ ((x ^^^ 0xffffffff) &&& z)

def maj (x y z : Nat) : Nat := (x &&& y) ^^^ (x &&& z) ^^^ (y &&& z)

/-- Pad a byte message: append 0x80, zeros, then the 64-bit big-endian bit length. -/
def pad (msg : List Nat) : List Nat :=
  let L := msg.length
  let zeros := (64 - ((L + 9) % 64)) % 64
  let bitLen := L * 8
  msg ++ [0x80] ++ List.replicate zeros 0 ++
    [(bitLen >>> 56) % 256, (bitLen >>> 48) % 256, (bitLen >>> 40) % 256, (bitLen >>> 32) % 256,
     (bitLen >>> 24) % 256, (bitLen >>> 16) % 256, (bitLen >>> 8) % 256, bitLen % 256]

/-- Split a padded byte list into 32-bit big-endian words. -/
def toWords : List Nat → List Nat
  | a :: b :: c :: d :: rest => (a * 16777216 + b * 65536 + c * 256 + d) :: toWords rest
  | _ => []

/-- Message schedule: extend the 16 block words by `fuel` further words. -/
def scheduleAux : Nat → Array Nat → Array Nat
  | 0, ws => ws
  | n + 1, ws =>
    let i := ws.size
    let w := (ssig1 ws[i - 2]! + ws[i - 7]! + ssig0 ws[i - 15]! + ws[i - 16]!) % M32
    scheduleAux n (ws.push w)

def schedule (block : List Nat) : List Nat :=
  (scheduleAux 48 block.toArray).toList

structure St where
  a : Nat
  b : Nat
  c : Nat
  d : Nat
  e : Nat
  f : Nat
  g : Nat
  h : Nat

def round (w k : Nat) (s : St) : St :=
  let t1 := (s.h + bsig1 s.e + ch s.e s.f s.g + k + w) % M32
  let t2 := (bsig0 s.a + maj s.a s.b s.c) % M32
  ⟨(t1 + t2) % M32, s.a, s.b, s.c, (s.d + t1) % M32, s.e, s.f, s.g⟩

def rounds : List Nat → List Nat → St → St
  | w :: ws, k :: ks, s => rounds ws ks (round w k s)
  | _, _, s => s

def compress (hs : List Nat) (block : List Nat) : List Nat :=
  let ws := schedule block
  match hs with
  | [a0, b0, c0, d0, e0, f0, g0, h0] =>
    let s := rounds ws K ⟨a0, b0, c0, d0, e0, f0, g0, h0⟩
    [(a0 + s.a) % M32, (b0 + s.b) % M32, (c0 + s.c) % M32, (d0 + s.d) % M32,
     (e0 + s.e) % M32, (f0 + s.f) % M32, (g0 + s.g) % M32, (h0 + s.h) % M32]
  | _ => hs

def blocksAux : Nat → List Nat → List (List Nat)
  | 0, _ => []
  | _, [] => []
  | n + 1, w :: ws => (w :: ws).take 16 :: blocksAux n ((w :: ws).drop 16)

def blocks (ws : List Nat) : List (List Nat) := blocksAux ws.length ws

def digestWords (msg : List Nat) : List Nat :=
  (blocks (toWords (pad msg))).foldl compress H0

def wordBytes (w : Nat) : List Nat :=
  [(w >>> 24) % 256, (w >>> 16) % 256, (w >>> 8) % 256, w % 256]

def digestBytes (msg : List Nat) : List Nat :=
  (digestWords msg).flatMap wordBytes

/-- Lowercase hex digit: `0`-`9` are code points 48-57, `a`-`f` are 97-102. -/
def hexDigit (n : Nat) : Char :=
  Char.ofNat (if n < 10 then 48 + n else 87 + n)

def byteHex (b : Nat) : List Char :=
  [hexDigit (b / 16), hexDigit (b % 16)]

/-- UTF-8 encoding of one character, from the encoding's definition. -/
def charUtf8 (c : Char) : List Nat :=
  let n := c.toNat
  if n < 0x80 then [n]
  else if n < 0x800 then [0xc0 + n / 64, 0x80 + n % 64]
  else if n < 0x10000 then [0xe0 + n / 4096, 0x80 + (n / 64) % 64, 0x80 + n % 64]
  else [0xf0 + n / 262144, 0x80 + (n / 4096) % 64, 0x80 + (n / 64) % 64, 0x80 + n % 64]

def strBytes (s : String) : List Nat := s.data.flatMap charUtf8

/-- Hex digest of a string: `createHash("sha256").update(s).digest("hex")`. -/
def sha256hex (s : String) : String :=
  String.mk ((digestBytes (strBytes s)).flatMap byteHex)

end SHA256

/- ───────────────────── JS string primitives ─────────────────────
The JS string methods used by the gateway, over the character list so
that they compute inside the kernel. -/

/-- JS `s.startsWith(p)`. -/
def jsStartsWith (s p : String) : Bool := p.data.isPrefixOf s.data

/-- JS `s.includes(c)` for a single character. -/
def jsIncludesChar (s : String) (c : Char) : Bool := s.data.contains c

def splitOnCharAux (c : Char) : List Char → List Char → List String
  | [], acc => [String.mk acc.reverse]
  | x :: xs, acc =>
    if x == c then String.mk acc.reverse :: splitOnCharAux c xs []
    else splitOnCharAux c xs (x :: acc)

/-- JS `s.split(c)` for a single-character separator. -/
def jsSplitChar (s : String) (c : Char) : List String := splitOnCharAux c s.data []

/-- JS `s.slice(n)` (drop the first `n` characters). -/
def strDrop (s : String) (n : Nat) : String := String.mk (s.data.drop n)

def charListLe : List Char → List Char → Bool
  | [], _ => true
  | _ :: _, [] => false
  | a :: as, b :: bs =>
    if a.toNat < b.toNat then true
    else if b.toNat < a.toNat then false
    else charListLe as bs

/-- Lexicographic string order (the order of ISO-8601 timestamps). -/
def strLe (a b : String) : Bool := charListLe a.data b.data

/- ─────────────────── Memory chain (unnamed/part_002) ───────────────────
`MemoryChain` from the in-memory storage module: PS-SHA∞ hash-chained
memory entries. The entry array is a Lean list in append order; the
hrtime timestamp consumed by `psSha` is an explicit parameter. -/

namespace Gateway

inductive MemoryType where
  | fact
  | observation
  | inference
  | commitment
deriving DecidableEq, Repr

structure MemoryEntry where
  hash : String
  prevHash : String
  content : String
  type : MemoryType
  truthState : Int
  timestamp : String
  agent : Option String
  tags : List String
  erased : Bool
deriving DecidableEq, Repr

/-- `psSha(prevHash, content)`: sha256 of `prevHash:content:ts` where `ts` is
the hrtime reading taken inside the function (passed explicitly here). -/
def psSha (prevHash content : String) (ts : Nat) : String :=
  SHA256.sha256hex (prevHash ++ ":" ++ content ++ ":" ++ toString ts)

/-- `MemoryChain.add`: link to the last entry's hash (`GENESIS` when empty),
hash the content with the hrtime reading `ts`, and push. -/
def MemoryChain.add (entries : List MemoryEntry) (content : String) (type : MemoryType)
    (truthState : Int) (agent : Option String) (tags : List String)
    (ts : Nat) (timestamp : String) : MemoryEntry × List MemoryEntry :=
  let prevHash := match entries.getLast? with
    | some last => last.hash
    | none => "GENESIS"
  let entry : MemoryEntry :=
    { hash := psSha prevHash content ts, prevHash := prevHash, content := content,
      type := type, truthState := truthState, timestamp := timestamp,
      agent := agent, tags := tags, erased := false }
  (entry, entries ++ [entry])

/-- `MemoryChain.get`: first entry with the given hash. -/
def MemoryChain.get (entries : List MemoryEntry) (hash : String) : Option MemoryEntry :=
  entries.find? (fun e => e.hash == hash)

/-- JS `string.slice(0, n)` over the character list. -/
def strTake (s : String) (n : Nat) : String := String.mk (s.data.take n)

/-- The in-place mutation `erase` performs on the located entry: set
`erased`, overwrite `content` with the bracketed 16-hex digest of the
original content. `hash`, `prevHash`, `truthState` are not touched. -/
def eraseEntry (e : MemoryEntry) : MemoryEntry :=
  { e with erased := true,
           content := "[ERASED:" ++ strTake (SHA256.sha256hex e.content) 16 ++ "]" }

/-- Replace the first entry whose hash matches, or report that none does. -/
def eraseAux : List MemoryEntry → String → Option (List MemoryEntry)
  | [], _ => none
  | e :: es, h =>
    if e.hash == h then some (eraseEntry e :: es)
    else (eraseAux es h).map (fun es' => e :: es')

/-- `MemoryChain.erase(hash)`: find the entry; absent gives `false` and no
change; present mutates that entry in place and gives `true`. -/
def MemoryChain.erase (entries : List MemoryEntry) (hash : String) :
    Bool × List MemoryEntry :=
  match eraseAux entries hash with
  | some entries' => (true, entries')
  | none => (false, entries)

structure VerifyResult where
  valid : Bool
  total : Nat
  checked : Nat
  firstInvalid : Option String
deriving DecidableEq, Repr

/-- The loop of `MemoryChain.verify`: `expectedPrev` is `GENESIS` at index 0
and the previous entry's hash afterwards; the first mismatch aborts with
`checked` = index and `firstInvalid` = that entry's hash. -/
def verifyAux : List MemoryEntry → String → Nat → Nat → VerifyResult
  | [], _, _, total => ⟨true, total, total, none⟩
  | e :: es, expectedPrev, i, total =>
    if e.prevHash ≠ expectedPrev then ⟨false, total, i, some e.hash⟩
    else verifyAux es e.hash (i + 1) total

/-- `MemoryChain.verify()`: walk the chain checking `prevHash` linkage. -/
def MemoryChain.verify (entries : List MemoryEntry) : VerifyResult :=
  verifyAux entries "GENESIS" 0 entries.length

end Gateway

/- ─────────────────── Task store (unnamed/part_002) ───────────────────
`TaskStore` keeps a JS `Map` keyed by unique generated ids; here it is the
list of tasks in insertion order (the `Map` iteration order). The
generated id and the `new Date().toISOString()` readings are explicit
parameters. -/

namespace Gateway

inductive Priority where
  | low
  | medium
  | high
  | critical
deriving DecidableEq, Repr

inductive TaskStatus where
  | available
  | claimed
  | inProgress
  | completed
  | cancelled
deriving DecidableEq, Repr

structure Task where
  id : String
  title : String
  description : String
  priority : Priority
  status : TaskStatus
  agent : Option String
  tags : List String
  skills : List String
  createdAt : String
  claimedAt : Option String
  completedAt : Option String
  summary : Option String
deriving DecidableEq, Repr

inductive TaskError where
  | notFound
  | notAvailable
deriving DecidableEq, Repr

instance {α β : Type} [DecidableEq α] [DecidableEq β] : DecidableEq (Except α β) :=
  fun x y =>
    match x, y with
    | .ok a, .ok b => if h : a = b then isTrue (by rw [h]) else isFalse (by simp [h])
    | .error a, .error b => if h : a = b then isTrue (by rw [h]) else isFalse (by simp [h])
    | .ok _, .error _ => isFalse (by simp)
    | .error _, .ok _ => isFalse (by simp)

/-- `TaskStore.add`: build the task with `status: "available"` and empty
lifecycle fields, and insert it (a fresh key goes to the end of the map). -/
def TaskStore.add (store : List Task) (title description : String) (priority : Priority)
    (tags skills : List String) (id createdAt : String) : Task × List Task :=
  let task : Task :=
    { id := id, title := title, description := description, priority := priority,
      status := .available, agent := none, tags := tags, skills := skills,
      createdAt := createdAt, claimedAt := none, completedAt := none, summary := none }
  (task, store ++ [task])

/-- `TaskStore.get`. -/
def TaskStore.get (store : List Task) (id : String) : Option Task :=
  store.find? (fun t => t.id == id)

/-- Write back the mutation of the task object found under `id`. -/
def setFirst : List Task → String → Task → List Task
  | [], _, _ => []
  | t :: ts, id, t' => if t.id == id then t' :: ts else t :: setFirst ts id t'

/-- `TaskStore.claim(id, agent)`: `not_found` when absent, `not_available`
unless the status is `available`; otherwise mutate to `claimed`/agent/time. -/
def TaskStore.claim (store : List Task) (id agent : String) (now : String) :
    Except TaskError (Task × List Task) :=
  match store.find? (fun t => t.id == id) with
  | none => .error .notFound
  | some t =>
    if t.status ≠ .available then .error .notAvailable
    else
      let t' := { t with status := .claimed, agent := some agent, claimedAt := some now }
      .ok (t', setFirst store id t')

/-- `TaskStore.complete(id, agent, summary)`: `not_found` when absent;
otherwise mutate to `completed` and record agent, time, and summary —
the current status is not inspected. -/
def TaskStore.complete (store : List Task) (id agent : String) (summary : String)
    (now : String) : Except TaskError (Task × List Task) :=
  match store.find? (fun t => t.id == id) with
  | none => .error .notFound
  | some t =>
    let t' := { t with status := .completed, agent := some agent,
                       completedAt := some now, summary := some summary }
    .ok (t', setFirst store id t')

/-- The numeric ranks `{ critical: 4, high: 3, medium: 2, low: 1 }` used by
the listing comparator. -/
def priorityRank : Priority → Nat
  | .critical => 4
  | .high => 3
  | .medium => 2
  | .low => 1

/-- The equality filters of `TaskStore.list` on `status`, `priority`,
`agent` (each present or absent; the `agent` filter value may be `null`). -/
structure TaskFilters where
  status : Option TaskStatus := none
  priority : Option Priority := none
  agent : Option (Option String) := none

/-- A task passes when every present filter field is equal. -/
def taskMatches (f : TaskFilters) (t : Task) : Bool :=
  (match f.status with | none => true | some s => t.status == s) &&
  (match f.priority with | none => true | some p => t.priority == p) &&
  (match f.agent with | none => true | some a => t.agent == a)

/-- The sort `all.sort((a, b) => p[b.priority] - p[a.priority])`:
`Array.prototype.sort` is stable (ES2019), so for this four-valued
comparator it is exactly the bucketing by rank 4, 3, 2, 1, each bucket in
original order. -/
def sortByPriorityDesc (l : List Task) : List Task :=
  l.filter (fun t => priorityRank t.priority == 4) ++
  l.filter (fun t => priorityRank t.priority == 3) ++
  l.filter (fun t => priorityRank t.priority == 2) ++
  l.filter (fun t => priorityRank t.priority == 1)

/-- `TaskStore.list(filters, limit, offset)`: filter, sort by priority
descending, then `slice(offset, offset + limit)`; `total` counts before
pagination. -/
def TaskStore.list (store : List Task) (filters : TaskFilters) (limit offset : Nat) :
    List Task × Nat :=
  let all := store.filter (taskMatches filters)
  let sorted := sortByPriorityDesc all
  (((sorted.drop offset).take limit), all.length)

end Gateway

/- ─────────────────── KV storage layer (unnamed/part_003) ───────────────────
`memoryWrite` / `memoryErase` of the KV-backed memory store, with the KV
namespace absent (the `_memoryStore` map branch); the map is an assoc
list keyed by the memory key. JS `unknown` values are a small JSON value
type with the `JSON.stringify` the erase path applies to them. -/

namespace Gateway

inductive JsonValue where
  | str : String → JsonValue
  | num : Int → JsonValue
  | null : JsonValue
deriving DecidableEq, Repr

/-- `JSON.stringify` on the values above (none needing escapes). -/
def JsonValue.stringify : JsonValue → String
  | .str s => "\"" ++ s ++ "\""
  | .num n => toString n
  | .null => "null"

structure KVMemoryEntry where
  key : String
  value : JsonValue
  hash : String
  prev_hash : String
  truth_state : Int
  timestamp_ns : Nat
  erased : Bool := false
deriving DecidableEq, Repr

abbrev MemoryStore := List (String × KVMemoryEntry)

def storeGet (m : MemoryStore) (k : String) : Option KVMemoryEntry :=
  (m.find? (fun p => p.1 == k)).map (fun p => p.2)

def storeSet (m : MemoryStore) (k : String) (e : KVMemoryEntry) : MemoryStore :=
  if (m.find? (fun p => p.1 == k)).isSome
  then m.map (fun p => if p.1 == k then (k, e) else p)
  else m ++ [(k, e)]

/-- `memoryWrite(key, value, truth_state)`: hash `prev:key:content:ts` where
`content = JSON.stringify(value)` and `ts = Date.now() * 1e6`, then link
and store. The module-level `_prevHash` is threaded explicitly. -/
def memoryWrite (m : MemoryStore) (prevHash : String) (key : String) (value : JsonValue)
    (truth_state : Int) (ts : Nat) : KVMemoryEntry × MemoryStore × String :=
  let content := value.stringify
  let hash := SHA256.sha256hex (prevHash ++ ":" ++ key ++ ":" ++ content ++ ":" ++ toString ts)
  let entry : KVMemoryEntry :=
    { key := key, value := value, hash := hash, prev_hash := prevHash,
      truth_state := truth_state, timestamp_ns := ts }
  (entry, storeSet m key entry, hash)

/-- `memoryRead(key)` with no KV namespace: the in-memory map. -/
def memoryRead (m : MemoryStore) (key : String) : Option KVMemoryEntry :=
  storeGet m key

/-- `memoryErase(key)`: absent keys give `false`; otherwise store a copy
whose `value` is `[ERASED:<full 64-hex digest of JSON.stringify(value)>]`,
with `erased = true` and `truth_state = -1` (hash fields spread-copied). -/
def memoryErase (m : MemoryStore) (key : String) : Bool × MemoryStore :=
  match memoryRead m key with
  | none => (false, m)
  | some entry =>
    let erasedHash := SHA256.sha256hex entry.value.stringify
    let erased : KVMemoryEntry :=
      { entry with value := .str ("[ERASED:" ++ erasedHash ++ "]"),
                   erased := true, truth_state := -1 }
    (true, storeSet m key erased)

end Gateway

/- ─────────────────── Rate limiter (src/ratelimit.ts) ───────────────────
`checkRateLimit`: fixed window keyed by `rl:<ip>:<route>:<windowStart>`
in a KV namespace. The KV is an assoc list; the decimal numerals it
stores are carried as the `Nat` that `parseInt` recovers (`String(n)`
round-trips through `parseInt(·, 10)`). `Date.now()` is the explicit
`now` in milliseconds. -/

namespace Gateway

structure WindowConfig where
  limit : Nat
  windowSeconds : Nat
deriving DecidableEq, Repr

/-- `DEFAULT_WINDOWS` with the `?? DEFAULT_WINDOWS.global` fallback. -/
def defaultWindows (route : String) : WindowConfig :=
  if route == "global" then ⟨200, 60⟩
  else if route == "chat" then ⟨60, 60⟩
  else if route == "memory" then ⟨120, 60⟩
  else if route == "agents" then ⟨30, 60⟩
  else ⟨200, 60⟩

structure RateLimitResult where
  allowed : Bool
  remaining : Nat
  resetAt : Nat
  retryAfter : Option Nat
deriving DecidableEq, Repr

abbrev RLStore := List (String × Nat)

def rlGet (m : RLStore) (k : String) : Option Nat :=
  (m.find? (fun p => p.1 == k)).map (fun p => p.2)

def rlPut (m : RLStore) (k : String) (v : Nat) : RLStore :=
  if (m.find? (fun p => p.1 == k)).isSome
  then m.map (fun p => if p.1 == k then (k, v) else p)
  else m ++ [(k, v)]

def rlKey (ip route : String) (windowStart : Nat) : String :=
  "rl:" ++ ip ++ ":" ++ route ++ ":" ++ toString windowStart

/-- The KV branch of `checkRateLimit(ip, route, kv)` at time `now`:
`windowStart = floor(now / windowMs) * windowMs`; at or above the limit,
deny with `retryAfter = ceil((windowEnd - now) / 1000)` and write nothing;
otherwise increment the counter (TTL handling lives in the KV). -/
def checkRateLimitKV (ip route : String) (now : Nat) (m : RLStore) :
    RateLimitResult × RLStore :=
  let config := defaultWindows route
  let windowMs := config.windowSeconds * 1000
  let windowStart := now / windowMs * windowMs
  let windowEnd := windowStart + windowMs
  let key := rlKey ip route windowStart
  let count := (rlGet m key).getD 0
  if config.limit ≤ count then
    (⟨false, 0, windowEnd, some ((windowEnd - now + 999) / 1000)⟩, m)
  else
    (⟨true, config.limit - count - 1, windowEnd, none⟩, rlPut m key (count + 1))

/-- `checkRateLimit` including the no-KV fallback, which always allows. -/
def checkRateLimit (ip route : String) (now : Nat) (kv : Option RLStore) :
    RateLimitResult × Option RLStore :=
  match kv with
  | none =>
    let config := defaultWindows route
    let windowMs := config.windowSeconds * 1000
    let windowEnd := now / windowMs * windowMs + windowMs
    (⟨true, config.limit - 1, windowEnd, none⟩, none)
  | some m =>
    let (r, m') := checkRateLimitKV ip route now m
    (r, some m')

/-- A schedule of requests from one client to one route, processed in
order against the KV store. -/
def runRateLimit (ip route : String) : List Nat → RLStore → List RateLimitResult × RLStore
  | [], m => ([], m)
  | t :: ts, m =>
    let (r, m') := checkRateLimitKV ip route t m
    let (rs, mf) := runRateLimit ip route ts m'
    (r :: rs, mf)

end Gateway

/- ────────── Provider selection (unnamed/part_004, tests/gateway.test.ts) ──────────
Two selection functions exist: `selectProvider` in the route handler
(anthropic / openai / ollama only) and `pickProvider` in the test suite
(adds gemini and together). -/

namespace Gateway

inductive ProviderKind where
  | anthropic
  | openai
  | ollama
deriving DecidableEq, Repr

/-- `selectProvider` from the route handler: `claude*` is anthropic;
`gpt*`, `o1*`, `o3*` are openai; everything else is ollama (local). -/
def selectProvider (model : String) : ProviderKind :=
  if jsStartsWith model "claude" then .anthropic
  else if jsStartsWith model "gpt" || jsStartsWith model "o1" || jsStartsWith model "o3" then
    .openai
  else .ollama

/-- `pickProvider` from the test suite: hyphenated prefixes and the
slash/together rule, defaulting to ollama. -/
def pickProvider (model : String) : String :=
  if jsStartsWith model "gpt-" then "openai"
  else if jsStartsWith model "claude-" then "anthropic"
  else if jsStartsWith model "gemini-" then "gemini"
  else if jsIncludesChar model '/' then "together"
  else "ollama"

/-- Modelled from the spec: the ordered first-match rules of the claim —
`claude*` anthropic, then `gpt*`/`o1*`/`o3*` openai, then `gemini*`
gemini, then any model containing `/` together, default ollama. For
comparison with the two implementations above. -/
def claimedPickProvider (model : String) : String :=
  if jsStartsWith model "claude" then "anthropic"
  else if jsStartsWith model "gpt" || jsStartsWith model "o1" || jsStartsWith model "o3" then
    "openai"
  else if jsStartsWith model "gemini" then "gemini"
  else if jsIncludesChar model '/' then "together"
  else "ollama"

end Gateway

/- ─────────────────── Auth (src/routes.ts) ───────────────────
`verifyJWT` / `requireAuth`. External effects are explicit parameters:
`verifySig secret signingInput sigB64` stands for the Web Crypto HMAC-SHA256
verification of `header.payload` against the decoded signature segment, and
`parsePayload payloadB64` for `JSON.parse(atob(payloadB64))` — `none` when
either throws (the catch returns null). `now` is `Date.now()` in ms. -/

namespace Gateway

/-- The decoded JSON payload: the `exp` claim (absent when the field is
missing or not a number) and the fields of the dev principal. -/
structure JwtPayload where
  exp : Option Nat := none
  sub : String := ""
  role : String := ""
  dev : Bool := false
deriving DecidableEq, Repr

/-- `verifyJWT(token, secret)`: split on `.`, require three segments,
verify the HMAC, decode the payload, then reject when `payload.exp` is
truthy (present and nonzero) and below `Math.floor(Date.now() / 1000)`. -/
def verifyJWT (token secret : String)
    (verifySig : String → String → String → Bool)
    (parsePayload : String → Option JwtPayload) (now : Nat) : Option JwtPayload :=
  match jsSplitChar token '.' with
  | [headerB64, payloadB64, sigB64] =>
    if verifySig secret (headerB64 ++ "." ++ payloadB64) sigB64 then
      match parsePayload payloadB64 with
      | none => none
      | some payload =>
        match payload.exp with
        | some e => if e ≠ 0 ∧ e < now / 1000 then none else some payload
        | none => some payload
    else none
  | _ => none

inductive AuthOutcome where
  | ok (payload : JwtPayload)
  | deny (status : Nat) (error : String) (message : String)
deriving DecidableEq, Repr

/-- The synthetic dev-mode principal `{sub: "anonymous", role: "admin", dev: true}`. -/
def devPrincipal : JwtPayload :=
  { exp := none, sub := "anonymous", role := "admin", dev := true }

/-- `requireAuth`: dev mode when no secret is configured; otherwise extract
the Bearer token and verify it, denying with 401 `unauthorized` bodies. -/
def requireAuth (secret : Option String) (authHeader : Option String)
    (verifySig : String → String → String → Bool)
    (parsePayload : String → Option JwtPayload) (now : Nat) : AuthOutcome :=
  match secret with
  | none => .ok devPrincipal
  | some sec =>
    let header := authHeader.getD ""
    if jsStartsWith header "Bearer " then
      match verifyJWT (strDrop header 7) sec verifySig parsePayload now with
      | none => .deny 401 "unauthorized" "Invalid or expired token"
      | some payload => .ok payload
    else .deny 401 "unauthorized" "Missing Authorization: Bearer <token>"

/-- `PUBLIC_PATHS` of the dispatcher. -/
def publicPaths : List String := ["/health", "/ready", "/openapi.json"]

/-- The dispatcher's auth gate: public paths skip `requireAuth`. -/
def authGate (path : String) (secret : Option String) (authHeader : Option String)
    (verifySig : String → String → String → Bool)
    (parsePayload : String → Option JwtPayload) (now : Nat) : Option AuthOutcome :=
  if publicPaths.contains path then none
  else some (requireAuth secret authHeader verifySig parsePayload now)

end Gateway

/- ────────── Proxy and audit (src/index.ts, unnamed/part_004) ──────────
`proxyToProvider` of the worker entry point, and the audit records and
error body the `/chat` route handler constructs. The network is the
explicit oracle `net`; the upstream response carries the status, the
`Content-Type` header, and the body the gateway reads from it. -/

namespace Gateway

structure UpstreamRequest where
  method : String
  url : String
  headers : List (String × String)
  body : Option String
deriving DecidableEq, Repr

structure UpstreamResponse where
  status : Nat
  contentType : Option String
  body : String
deriving DecidableEq, Repr

structure ClientResponse where
  status : Nat
  headers : List (String × String)
  body : String
deriving DecidableEq, Repr

/-- The upstream request `proxyToProvider` sends: `Content-Type`, the
`extraHeaders`, and `Authorization: Bearer <apiKey>` when a key is given;
the body is forwarded for non-GET requests. -/
def buildUpstreamRequest (reqMethod reqBody : String) (apiKey : Option String)
    (baseUrl path : String) (extraHeaders : List (String × String)) : UpstreamRequest :=
  let headers := [("Content-Type", "application/json")] ++ extraHeaders ++
    (match apiKey with
     | some k => [("Authorization", "Bearer " ++ k)]
     | none => [])
  { method := reqMethod, url := baseUrl ++ path, headers := headers,
    body := if reqMethod ≠ "GET" then some reqBody else none }

/-- How `proxyToProvider` turns the upstream response into the client
response: upstream status, `cors + Content-Type` headers, upstream body. -/
def relayResponse (corsHeaders : List (String × String)) (res : UpstreamResponse) :
    ClientResponse :=
  { status := res.status,
    headers := corsHeaders ++ [("Content-Type", res.contentType.getD "application/json")],
    body := res.body }

/-- `proxyToProvider` end to end over the network oracle `net`. -/
def proxyToProvider (net : UpstreamRequest → UpstreamResponse)
    (reqMethod reqBody : String) (apiKey : Option String) (baseUrl path : String)
    (corsHeaders extraHeaders : List (String × String)) : ClientResponse :=
  relayResponse corsHeaders
    (net (buildUpstreamRequest reqMethod reqBody apiKey baseUrl path extraHeaders))

/-- The audit record the `/chat` route emits before proxying:
`{event: "chat", agent_id, model, message_count, stream}`. -/
structure ChatAuditRecord where
  event : String
  agent_id : String
  model : String
  message_count : Nat
  stream : Bool
deriving DecidableEq, Repr

def chatAudit (clientId model : String) (messageCount : Nat) (stream : Bool) :
    ChatAuditRecord :=
  { event := "chat", agent_id := clientId, model := model,
    message_count := messageCount, stream := stream }

/-- The audit record of the `/chat` error path:
`{event: "chat_error", error: message, model}`. -/
structure ChatErrorAuditRecord where
  event : String
  error : String
  model : String
deriving DecidableEq, Repr

def chatErrorAudit (message model : String) : ChatErrorAuditRecord :=
  { event := "chat_error", error := message, model := model }

/-- The 502 error body of the `/chat` route:
`{error: "provider_error", message}`. -/
structure ProviderErrorBody where
  error : String
  message : String
deriving DecidableEq, Repr

def chatErrorResponse (message : String) : Nat × ProviderErrorBody :=
  (502, ⟨"provider_error", message⟩)

/-- Substring occurrence: `needle` occurs contiguously in `hay` (how a
credential would "appear in" a body, header value, or message). -/
def occursIn (needle hay : String) : Prop := needle.data <:+: hay.data

instance (needle hay : String) : Decidable (occursIn needle hay) :=
  inferInstanceAs (Decidable (needle.data <:+: hay.data))

/-- All strings an audit record of the chat route carries. -/
def ChatAuditRecord.strings (r : ChatAuditRecord) : List String :=
  [r.event, r.agent_id, r.model]

def ChatErrorAuditRecord.strings (r : ChatErrorAuditRecord) : List String :=
  [r.event, r.error, r.model]

end Gateway

/- ─────────────────── Spec-side definitions and sample data ─────────────────── -/

namespace Gateway

/-- Modelled from the spec: the verification the claim describes — check
`prev_hash` linkage and, for records with `erased == false`, recompute the
digest from `(prev_hash, content, timestamp)` and compare it with the
stored `hash`; abort at the first deviation. For comparison with
`MemoryChain.verify`. -/
def claimedDigest (e : MemoryEntry) : String :=
  SHA256.sha256hex (e.prevHash ++ ":" ++ e.content ++ ":" ++ e.timestamp)

def claimedVerifyAux : List MemoryEntry → String → Nat → Nat → VerifyResult
  | [], _, _, total => ⟨true, total, total, none⟩
  | e :: es, expectedPrev, i, total =>
    if e.prevHash ≠ expectedPrev then ⟨false, total, i, some e.hash⟩
    else if e.erased = false ∧ e.hash ≠ claimedDigest e then ⟨false, total, i, some e.hash⟩
    else claimedVerifyAux es e.hash (i + 1) total

def claimedVerify (entries : List MemoryEntry) : VerifyResult :=
  claimedVerifyAux entries "GENESIS" 0 entries.length

/-- Linkage of a chain whose predecessor hash is `prev` (analysis helper). -/
def linkedFromB (prev : String) : List MemoryEntry → Bool
  | [] => true
  | e :: es => (e.prevHash == prev) && linkedFromB e.hash es

/-- The hash of the last record, `prev` for the empty chain (analysis helper). -/
def chainEnd (prev : String) : List MemoryEntry → String
  | [] => prev
  | e :: es => chainEnd e.hash es

/-- The listing order of the spec: priority strictly descending, ties by
creation time ascending. -/
def listOrder (a b : Task) : Prop :=
  priorityRank b.priority < priorityRank a.priority ∨
    (a.priority = b.priority ∧ strLe a.createdAt b.createdAt = true)

/-- Sample chain entries (hash fields chosen freely: `erase` and `verify`
read them only for equality). -/
def sampleEntry0 : MemoryEntry :=
  { hash := "h0", prevHash := "GENESIS", content := "a", type := .fact, truthState := 1,
    timestamp := "t0", agent := none, tags := [], erased := false }

def sampleEntry1 : MemoryEntry :=
  { hash := "h1", prevHash := "h0", content := "b", type := .observation, truthState := 0,
    timestamp := "t1", agent := some "alice", tags := ["x"], erased := false }

/-- A record whose stored hash is not any sha256 digest of its fields. -/
def forgedEntry : MemoryEntry :=
  { hash := "", prevHash := "GENESIS", content := "a", type := .fact, truthState := 1,
    timestamp := "t", agent := none, tags := [], erased := false }

/-- A chain entry for the truth-state counterexample. -/
def truthEntry : MemoryEntry :=
  { hash := "h0", prevHash := "GENESIS", content := "secret fact", type := .fact,
    truthState := 1, timestamp := "t0", agent := none, tags := [], erased := false }

def sampleKVEntry : KVMemoryEntry :=
  { key := "k", value := .str "v", hash := "h", prev_hash := "GENESIS", truth_state := 1,
    timestamp_ns := 5, erased := false }

def sampleTask : Task :=
  { id := "task_1", title := "T", description := "", priority := .high, status := .available,
    agent := none, tags := [], skills := [], createdAt := "2026-01-01T00:00:00.000Z",
    claimedAt := none, completedAt := none, summary := none }

def cancelledTask : Task := { sampleTask with id := "task_2", status := .cancelled }

def lowTask : Task :=
  { sampleTask with id := "task_3", priority := .low, createdAt := "2026-01-01T00:00:01.000Z" }

def criticalTask : Task :=
  { sampleTask with id := "task_4", createdAt := "2026-01-01T00:00:02.000Z", priority := Priority.critical }

/-- A concrete upstream oracle: always 200 with body `ok`. -/
def net0 : UpstreamRequest → UpstreamResponse := fun _ => ⟨200, none, "ok"⟩

end Gateway

/- ═══════════════════════════ Theorems ═══════════════════════════ -/

namespace Gateway

/-- C2 (counterexample): the claim routes every model starting with `o1` to
openai, but `pickProvider` sends `o1-preview` to ollama (the test-suite
selector has no `o1`/`o3` rule), and the claim routes `gemini-1.5` to gemini,
but the route handler's `selectProvider` sends it to ollama. -/
theorem C2_counterexample :
    pickProvider "o1-preview" = "ollama" ∧
    claimedPickProvider "o1-preview" = "openai" ∧
    selectProvider "gemini-1.5" = ProviderKind.ollama := by
  refine ⟨by decide, by decide, by decide⟩

/-- C2 (amended): `pickProvider` is total into the five provider identities
and implements first-match on `gpt-`, `claude-`, `gemini-`, then `/` for
together, defaulting to ollama; the claim's five concrete routings hold.
`selectProvider` in the route handler routes `claude*` to anthropic and
`gpt*`/`o1*`/`o3*` to openai, and everything else — including gemini and
slash models — to ollama. -/
theorem C2_provider_selection (m : String) :
    (pickProvider "gpt-4o" = "openai" ∧
     pickProvider "claude-3-5-sonnet" = "anthropic" ∧
     pickProvider "gemini-1.5" = "gemini" ∧
     pickProvider "meta-llama/Llama-3.1-8B" = "together" ∧
     pickProvider "qwen2.5:3b" = "ollama") ∧
    (pickProvider m = "openai" ∨ pickProvider m = "anthropic" ∨
     pickProvider m = "gemini" ∨ pickProvider m = "together" ∨
     pickProvider m = "ollama") ∧
    (jsStartsWith m "gpt-" = true → pickProvider m = "openai") ∧
    (jsStartsWith m "gpt-" = false → jsStartsWith m "claude-" = true →
      pickProvider m = "anthropic") ∧
    (jsStartsWith m "gpt-" = false → jsStartsWith m "claude-" = false →
      jsStartsWith m "gemini-" = true → pickProvider m = "gemini") ∧
    (jsStartsWith m "gpt-" = false → jsStartsWith m "claude-" = false →
      jsStartsWith m "gemini-" = false → jsIncludesChar m '/' = true →
      pickProvider m = "together") ∧
    (jsStartsWith m "gpt-" = false → jsStartsWith m "claude-" = false →
      jsStartsWith m "gemini-" = false → jsIncludesChar m '/' = false →
      pickProvider m = "ollama") ∧
    (jsStartsWith m "claude" = true → selectProvider m = ProviderKind.anthropic) ∧
    (jsStartsWith m "claude" = false →
      (jsStartsWith m "gpt" || jsStartsWith m "o1" || jsStartsWith m "o3") = true →
      selectProvider m = ProviderKind.openai) ∧
    (jsStartsWith m "claude" = false →
      (jsStartsWith m "gpt" || jsStartsWith m "o1" || jsStartsWith m "o3") = false →
      selectProvider m = ProviderKind.ollama) := by
  refine ⟨⟨by decide, by decide, by decide, by decide, by decide⟩, ?_, ?_, ?_, ?_, ?_, ?_, ?_, ?_, ?_⟩
  · unfold pickProvider
    split
    · exact Or.inl rfl
    · split
      · exact Or.inr (Or.inl rfl)
      · split
        · exact Or.inr (Or.inr (Or.inl rfl))
        · split
          · exact Or.inr (Or.inr (Or.inr (Or.inl rfl)))
          · exact Or.inr (Or.inr (Or.inr (Or.inr rfl)))
  · intro h; simp [pickProvider, h]
  · intro h1 h2; simp [pickProvider, h1, h2]
  · intro h1 h2 h3; simp [pickProvider, h1, h2, h3]
  · intro h1 h2 h3 h4; simp [pickProvider, h1, h2, h3, h4]
  · intro h1 h2 h3 h4; simp [pickProvider, h1, h2, h3, h4]
  · intro h; simp [selectProvider, h]
  · intro h1 h2; simp [selectProvider, h1, h2]
  · intro h1 h2; simp [selectProvider, h1] at h2 ⊢
    simp [h2.1.1, h2.1.2, h2.2]

/-- C2 (witness): the characterization applied at `o3-mini`, which falls
through every `pickProvider` rule to ollama. -/
theorem C2_provider_selection_witness : pickProvider "o3-mini" = "ollama" :=
  (C2_provider_selection "o3-mini").2.2.2.2.2.2.1 (by decide) (by decide) (by decide) (by decide)

end Gateway

namespace Gateway

theorem isPrefixOf_append_self (l t : List Char) : l.isPrefixOf (l ++ t) = true := by
  induction l with
  | nil => simp [List.isPrefixOf]
  | cons a as ih => simp [List.isPrefixOf, ih]

theorem jsStartsWith_append (p t : String) : jsStartsWith (p ++ t) p = true := by
  have hdata : (p ++ t).data = p.data ++ t.data := rfl
  simp [jsStartsWith, hdata, isPrefixOf_append_self]

theorem strDrop_append (p t : String) (n : Nat) (h : p.data.length = n) :
    strDrop (p ++ t) n = t := by
  have hdata : (p ++ t).data = p.data ++ t.data := rfl
  simp [strDrop, hdata, ← h, List.drop_left]

/-- Reduction of `requireAuth` on a well-formed Bearer header. -/
theorem requireAuth_bearer (secret tok : String)
    (verifySig : String → String → String → Bool)
    (parsePayload : String → Option JwtPayload) (now : Nat) :
    requireAuth (some secret) (some ("Bearer " ++ tok)) verifySig parsePayload now =
      match verifyJWT tok secret verifySig parsePayload now with
      | none => .deny 401 "unauthorized" "Invalid or expired token"
      | some payload => .ok payload := by
  have hbear : jsStartsWith ("Bearer " ++ tok) "Bearer " = true := jsStartsWith_append _ _
  have hdrop : strDrop ("Bearer " ++ tok) 7 = tok := strDrop_append _ _ _ (by decide)
  simp only [requireAuth, Option.getD_some, hbear, if_true, hdrop]

/-- Reduction of `verifyJWT` once the token splits, the signature verifies,
and the payload decodes. -/
theorem verifyJWT_reduce (secret tok hB pB sB : String)
    (verifySig : String → String → String → Bool)
    (parsePayload : String → Option JwtPayload) (payload : JwtPayload) (now : Nat)
    (hsplit : jsSplitChar tok '.' = [hB, pB, sB])
    (hsig : verifySig secret (hB ++ "." ++ pB) sB = true)
    (hparse : parsePayload pB = some payload) :
    verifyJWT tok secret verifySig parsePayload now =
      match payload.exp with
      | some e => if e ≠ 0 ∧ e < now / 1000 then none else some payload
      | none => some payload := by
  unfold verifyJWT
  rw [hsplit]
  simp [hsig, hparse]

/-- C7 (counterexample): a signed token whose `exp` equals the current unix
second — so does not strictly exceed the current time — is accepted, not
rejected with 401: the code only rejects `exp < now`. -/
theorem C7_counterexample :
    verifyJWT "h.p.s" "sec" (fun _ _ _ => true)
      (fun _ => some { exp := some 1000 }) 1000000 = some { exp := some 1000 } ∧
    requireAuth (some "sec") (some "Bearer h.p.s") (fun _ _ _ => true)
      (fun _ => some { exp := some 1000 }) 1000000 =
      .ok { exp := some 1000 } ∧
    ¬ (1000000 / 1000 < 1000) := by
  refine ⟨by decide, by decide, by decide⟩

/-- C7 (amended): for a request bearing a Bearer token whose signature
verifies and whose payload decodes, authentication fails with status 401 and
an `unauthorized` error exactly when the `exp` claim is present, nonzero,
and strictly below the current unix second; it succeeds when `exp` is
absent, zero, or at least the current second (so `exp` equal to the current
second is accepted: `exp` need not strictly exceed the time). -/
theorem C7_jwt_expiry (secret tok hB pB sB : String)
    (verifySig : String → String → String → Bool)
    (parsePayload : String → Option JwtPayload) (payload : JwtPayload) (now : Nat)
    (hsplit : jsSplitChar tok '.' = [hB, pB, sB])
    (hsig : verifySig secret (hB ++ "." ++ pB) sB = true)
    (hparse : parsePayload pB = some payload) :
    (∀ e, payload.exp = some e → e ≠ 0 → e < now / 1000 →
      verifyJWT tok secret verifySig parsePayload now = none ∧
      requireAuth (some secret) (some ("Bearer " ++ tok)) verifySig parsePayload now =
        .deny 401 "unauthorized" "Invalid or expired token") ∧
    (requireAuth (some secret) (some ("Bearer " ++ tok)) verifySig parsePayload now =
        .ok payload ↔
      payload.exp = none ∨ payload.exp = some 0 ∨
        ∃ e, payload.exp = some e ∧ now / 1000 ≤ e) := by
  have hv := verifyJWT_reduce secret tok hB pB sB verifySig parsePayload payload now
    hsplit hsig hparse
  have hr := requireAuth_bearer secret tok verifySig parsePayload now
  constructor
  · intro e he hne hlt
    rw [hv, he] at hr ⊢
    simp only [ne_eq, hne, not_false_iff, true_and, hlt, if_true] at hr ⊢
    exact hr
  · rw [hv] at hr
    cases he : payload.exp with
    | none =>
      rw [he] at hr
      simp [hr]
    | some e =>
      rw [he] at hr
      by_cases h0 : e = 0
      · subst h0
        simp at hr
        simp [hr]
      · by_cases hlt : e < now / 1000
        · simp only [ne_eq, h0, not_false_iff, true_and, hlt, if_true] at hr
          rw [hr]
          constructor
          · intro hcontra; cases hcontra
          · rintro (hn | hz | ⟨e', he', hle⟩)
            · cases hn
            · cases hz; exact absurd rfl h0
            · cases he'; exact absurd hle (Nat.not_le.mpr hlt)
        · have hcond : ¬ (e ≠ 0 ∧ e < now / 1000) := by
            intro hc; exact hlt hc.2
          simp only [hcond, if_false] at hr
          rw [hr]
          constructor
          · intro _
            exact Or.inr (Or.inr ⟨e, rfl, by omega⟩)
          · intro _; rfl

/-- C7 (witness): the expiry rejection applied at a concrete expired token
(`exp = 5`, current second 1000). -/
theorem C7_jwt_expiry_witness :
    jsSplitChar "h.p.s" '.' = ["h", "p", "s"] ∧
    requireAuth (some "sec") (some ("Bearer " ++ "h.p.s")) (fun _ _ _ => true)
      (fun _ => some { exp := some 5 }) 1000000 =
      .deny 401 "unauthorized" "Invalid or expired token" :=
  ⟨by decide,
   ((C7_jwt_expiry "sec" "h.p.s" "h" "p" "s" (fun _ _ _ => true)
      (fun _ => some { exp := some 5 }) { exp := some 5 } 1000000
      (by decide) rfl rfl).1 5 rfl (by decide) (by decide)).2⟩

/-- C10: a signed, three-segment token whose decoded payload has no `exp`
field is accepted at every current time — expiry is enforced only when an
`exp` claim is present, so such a token never expires. -/
theorem C10_no_exp_never_expires (secret tok hB pB sB : String)
    (verifySig : String → String → String → Bool)
    (parsePayload : String → Option JwtPayload) (payload : JwtPayload)
    (hsplit : jsSplitChar tok '.' = [hB, pB, sB])
    (hsig : verifySig secret (hB ++ "." ++ pB) sB = true)
    (hparse : parsePayload pB = some payload)
    (hexp : payload.exp = none) :
    ∀ now, verifyJWT tok secret verifySig parsePayload now = some payload ∧
      requireAuth (some secret) (some ("Bearer " ++ tok)) verifySig parsePayload now =
        .ok payload := by
  intro now
  have hv := verifyJWT_reduce secret tok hB pB sB verifySig parsePayload payload now
    hsplit hsig hparse
  rw [hexp] at hv
  have hr := requireAuth_bearer secret tok verifySig parsePayload now
  rw [hv] at hr
  exact ⟨hv, hr⟩

/-- C10 (witness): a concrete signed token with no `exp`, far in the future. -/
theorem C10_no_exp_never_expires_witness :
    requireAuth (some "sec") (some ("Bearer " ++ "h.p.s")) (fun _ _ _ => true)
      (fun _ => some {}) 999999999999999 = .ok {} :=
  (C10_no_exp_never_expires "sec" "h.p.s" "h" "p" "s" (fun _ _ _ => true)
    (fun _ => some {}) {} (by decide) rfl rfl rfl 999999999999999).2

end Gateway

namespace Gateway

theorem storeGet_update_self (m : MemoryStore) (k : String) (e : KVMemoryEntry)
    (h : (storeGet m k).isSome) :
    storeGet (m.map (fun p => if p.1 == k then (k, e) else p)) k = some e := by
  induction m with
  | nil => simp [storeGet] at h
  | cons p ps ih =>
    by_cases hk : p.1 == k
    · simp [storeGet, List.find?, hk]
    · have h' : (storeGet ps k).isSome := by
        simpa [storeGet, List.find?, hk] using h
      simpa [storeGet, List.find?, hk] using ih h'

theorem storeGet_update_other (m : MemoryStore) (k k' : String) (e : KVMemoryEntry)
    (hne : k' ≠ k) :
    storeGet (m.map (fun p => if p.1 == k then (k, e) else p)) k' = storeGet m k' := by
  induction m with
  | nil => rfl
  | cons p ps ih =>
    by_cases hk : p.1 == k
    · have hpk : p.1 = k := by simpa using hk
      have h1 : (k == k') = false := by simp [Ne.symm hne]
      have h2 : (p.1 == k') = false := by simp [hpk, Ne.symm hne]
      simp [storeGet, List.find?, hk, h1, h2] at ih ⊢
      exact ih
    · simp only [List.map_cons, hk, Bool.false_eq_true, if_false, storeGet, List.find?] at ih ⊢
      by_cases hk' : p.1 == k'
      · simp [hk']
      · simp only [hk', Bool.false_eq_true, if_false] at ih ⊢
        exact ih

theorem storeGet_append_absent (m : MemoryStore) (k k' : String) (e : KVMemoryEntry)
    (hne : k' ≠ k) :
    storeGet (m ++ [(k, e)]) k' = storeGet m k' := by
  induction m with
  | nil =>
    have hkk : (k == k') = false := by simp [Ne.symm hne]
    simp [storeGet, List.find?, hkk]
  | cons p ps ih =>
    by_cases hk' : p.1 == k'
    · simp [storeGet, List.find?, hk']
    · simp only [storeGet, List.find?, hk', Bool.false_eq_true, if_false,
        List.cons_append] at ih ⊢
      exact ih

theorem storeGet_storeSet_self (m : MemoryStore) (k : String) (e : KVMemoryEntry)
    (h : (storeGet m k).isSome) : storeGet (storeSet m k e) k = some e := by
  unfold storeSet
  have hfind : (m.find? (fun p => p.1 == k)).isSome := by
    simpa [storeGet, Option.isSome_map] using h
  rw [if_pos hfind]
  exact storeGet_update_self m k e h

theorem storeGet_storeSet_other (m : MemoryStore) (k k' : String) (e : KVMemoryEntry)
    (hne : k' ≠ k) : storeGet (storeSet m k e) k' = storeGet m k' := by
  unfold storeSet
  by_cases hfind : (m.find? (fun p => p.1 == k)).isSome
  · rw [if_pos hfind]; exact storeGet_update_other m k k' e hne
  · rw [if_neg hfind]; exact storeGet_append_absent m k k' e hne

/-- C8 (counterexample): `MemoryChain.erase` on an entry with
`truthState = 1` succeeds and sets `erased`, but leaves `truthState` at 1
instead of setting it to −1: the chain variant never touches the truth
state. -/
theorem C8_counterexample :
    truthEntry.truthState = 1 ∧
    (MemoryChain.erase [truthEntry] "h0").1 = true ∧
    ((MemoryChain.erase [truthEntry] "h0").2.head?.map (fun e => e.erased)) = some true ∧
    ((MemoryChain.erase [truthEntry] "h0").2.head?.map (fun e => e.truthState)) = some 1 :=
  ⟨rfl, rfl, rfl, rfl⟩

/-- C8 (amended): in the KV storage layer, `memoryErase` of an existing
entry returns true and stores a copy with `truth_state = −1`, `erased =
true`, and the value replaced by `[ERASED:<full 64-hex digest of the
original serialized value>]`, hash fields preserved and other keys
untouched; erase of a missing key returns false and changes nothing. The
`MemoryChain` variant, however, replaces content and sets `erased` but
leaves `truthState` unchanged. -/
theorem C8_kv_erase_sets_truth_state (m : MemoryStore) (key : String)
    (entry : KVMemoryEntry) (hread : memoryRead m key = some entry) :
    (memoryErase m key).1 = true ∧
    storeGet (memoryErase m key).2 key = some
      { entry with
          value := .str ("[ERASED:" ++ SHA256.sha256hex entry.value.stringify ++ "]"),
          erased := true, truth_state := -1 } ∧
    (∀ k', k' ≠ key → storeGet (memoryErase m key).2 k' = storeGet m k') ∧
    (∀ m' : MemoryStore, memoryRead m' key = none → memoryErase m' key = (false, m')) := by
  have hsome : (storeGet m key).isSome := by
    simp [memoryRead] at hread
    simp [hread]
  refine ⟨?_, ?_, ?_, ?_⟩
  · simp [memoryErase, hread]
  · simp only [memoryErase, hread]
    exact storeGet_storeSet_self m key _ hsome
  · intro k' hne
    simp only [memoryErase, hread]
    exact storeGet_storeSet_other m key k' _ hne
  · intro m' hnone
    simp [memoryErase, hnone]

/-- C8 (witness): the KV erase applied at a concrete one-entry store. -/
theorem C8_kv_erase_witness :
    memoryRead [("k", sampleKVEntry)] "k" = some sampleKVEntry ∧
    (memoryErase [("k", sampleKVEntry)] "k").1 = true :=
  ⟨rfl, (C8_kv_erase_sets_truth_state [("k", sampleKVEntry)] "k" sampleKVEntry rfl).1⟩

/-- C6 (counterexample): `complete` succeeds on a task whose status is
`cancelled` (not `claimed` or `in_progress`), moving it to `completed` —
the implementation never checks the current status, so the claimed
state-machine confinement fails. -/
theorem C6_counterexample :
    cancelledTask.status = .cancelled ∧
    TaskStore.complete [cancelledTask] "task_2" "A" "done" "now" =
      .ok ({ cancelledTask with
              status := .completed, agent := some "A",
              completedAt := some "now", summary := some "done" },
           [{ cancelledTask with
              status := .completed, agent := some "A",
              completedAt := some "now", summary := some "done" }]) := by
  exact ⟨rfl, by decide⟩

/-- C6 (amended): `claim` succeeds exactly on existing tasks with status
`available` (recording agent and claim time) and fails with
`not_available` on any other existing task, `not_found` when absent;
`complete`, however, succeeds on every existing task regardless of its
current status — including `available`, `completed`, and `cancelled` —
unconditionally setting `completed` and recording agent, time, and
summary; only the missing-task guard applies. -/
theorem C6_task_transitions (store : List Task) (id agent summary now : String) :
    (TaskStore.get store id = none →
      TaskStore.claim store id agent now = .error .notFound ∧
      TaskStore.complete store id agent summary now = .error .notFound) ∧
    (∀ t, TaskStore.get store id = some t → t.status ≠ .available →
      TaskStore.claim store id agent now = .error .notAvailable) ∧
    (∀ t, TaskStore.get store id = some t → t.status = .available →
      TaskStore.claim store id agent now =
        .ok ({ t with status := .claimed, agent := some agent, claimedAt := some now },
             setFirst store id
               { t with status := .claimed, agent := some agent, claimedAt := some now })) ∧
    (∀ t, TaskStore.get store id = some t →
      TaskStore.complete store id agent summary now =
        .ok ({ t with
                status := .completed, agent := some agent,
                completedAt := some now, summary := some summary },
             setFirst store id
               { t with
                  status := .completed, agent := some agent,
                  completedAt := some now, summary := some summary })) := by
  refine ⟨?_, ?_, ?_, ?_⟩
  · intro hnone
    have hfind : store.find? (fun t => t.id == id) = none := hnone
    constructor
    · simp [TaskStore.claim, hfind]
    · simp [TaskStore.complete, hfind]
  · intro t ht hst
    simp [TaskStore.get] at ht
    simp [TaskStore.claim, ht, hst]
  · intro t ht hst
    simp [TaskStore.get] at ht
    simp [TaskStore.claim, ht, hst]
  · intro t ht
    simp [TaskStore.get] at ht
    simp [TaskStore.complete, ht]

/-- C6 (witness): claiming a concrete available task. -/
theorem C6_task_transitions_witness :
    TaskStore.get [sampleTask] "task_1" = some sampleTask ∧
    sampleTask.status = .available ∧
    TaskStore.claim [sampleTask] "task_1" "A" "now" =
      .ok ({ sampleTask with
              status := .claimed, agent := some "A", claimedAt := some "now" },
           setFirst [sampleTask] "task_1"
             { sampleTask with
                status := .claimed, agent := some "A", claimedAt := some "now" }) :=
  ⟨rfl, rfl, (C6_task_transitions [sampleTask] "task_1" "A" "s" "now").2.2.1 sampleTask rfl rfl⟩

end Gateway

namespace Gateway

theorem eraseAux_not_found (es : List MemoryEntry) (h : String)
    (hnone : ∀ e ∈ es, e.hash ≠ h) : eraseAux es h = none := by
  induction es with
  | nil => rfl
  | cons e es ih =>
    have he : (e.hash == h) = false := by
      simp [hnone e (List.mem_cons_self e es)]
    simp [eraseAux, he, ih (fun x hx => hnone x (List.mem_cons_of_mem _ hx))]

theorem eraseAux_found (pre : List MemoryEntry) (e : MemoryEntry) (post : List MemoryEntry)
    (h : String) (hpre : ∀ x ∈ pre, x.hash ≠ h) (he : e.hash = h) :
    eraseAux (pre ++ e :: post) h = some (pre ++ eraseEntry e :: post) := by
  induction pre with
  | nil => simp [eraseAux, he]
  | cons p ps ih =>
    have hp : (p.hash == h) = false := by
      simp [hpre p (List.mem_cons_self p ps)]
    simp [eraseAux, hp, ih (fun x hx => hpre x (List.mem_cons_of_mem _ hx))]

theorem exists_first_match (es : List MemoryEntry) (h : String)
    (hmem : ∃ e ∈ es, e.hash = h) :
    ∃ pre e post, es = pre ++ e :: post ∧ (∀ x ∈ pre, x.hash ≠ h) ∧ e.hash = h := by
  induction es with
  | nil => simp at hmem
  | cons a as ih =>
    by_cases ha : a.hash = h
    · exact ⟨[], a, as, rfl, by simp, ha⟩
    · obtain ⟨e, he, hh⟩ := hmem
      rcases List.mem_cons.mp he with rfl | htail
      · exact absurd hh ha
      · obtain ⟨pre, e', post, heq, hpre, he'⟩ := ih ⟨e, htail, hh⟩
        refine ⟨a :: pre, e', post, by simp [heq], ?_, he'⟩
        intro x hx
        rcases List.mem_cons.mp hx with rfl | hx'
        · exact ha
        · exact hpre x hx'

theorem verifyAux_congr (es es' : List MemoryEntry)
    (hsame : es.map (fun e => (e.hash, e.prevHash)) =
      es'.map (fun e => (e.hash, e.prevHash))) :
    ∀ prev i total, verifyAux es prev i total = verifyAux es' prev i total := by
  induction es generalizing es' with
  | nil =>
    cases es' with
    | nil => intro prev i total; rfl
    | cons e' es'' => simp at hsame
  | cons e es ih =>
    cases es' with
    | nil => simp at hsame
    | cons e' es'' =>
      simp only [List.map_cons, List.cons.injEq, Prod.mk.injEq] at hsame
      obtain ⟨⟨hh, hpv⟩, htl⟩ := hsame
      intro prev i total
      simp only [verifyAux, ← hh, ← hpv]
      by_cases hc : e.prevHash ≠ prev
      · simp [hc]
      · simp only [hc, if_false]
        exact ih es'' htl e.hash (i + 1) total

/-- C3: erasing the hash of an existing record succeeds; the first record
with that hash gets content `[ERASED:<first 16 hex of sha256(original)>]`
and `erased = true` while its `hash`/`prevHash` and every other record are
untouched, so `verify()` is unchanged (in particular it still returns
`valid = true`); erasing an unknown hash returns false and leaves the
chain as it was. -/
theorem C3_erase_preserves_chain (es : List MemoryEntry) (h : String) :
    ((∀ e ∈ es, e.hash ≠ h) → MemoryChain.erase es h = (false, es)) ∧
    ((∃ e ∈ es, e.hash = h) → (MemoryChain.erase es h).1 = true) ∧
    (∀ pre e post, es = pre ++ e :: post → (∀ x ∈ pre, x.hash ≠ h) → e.hash = h →
      (MemoryChain.erase es h).2 = pre ++ eraseEntry e :: post ∧
      (eraseEntry e).content =
        "[ERASED:" ++ strTake (SHA256.sha256hex e.content) 16 ++ "]" ∧
      (eraseEntry e).erased = true ∧
      (eraseEntry e).hash = e.hash ∧
      (eraseEntry e).prevHash = e.prevHash ∧
      MemoryChain.verify (MemoryChain.erase es h).2 = MemoryChain.verify es) := by
  refine ⟨?_, ?_, ?_⟩
  · intro hnone
    simp [MemoryChain.erase, eraseAux_not_found es h hnone]
  · intro hmem
    obtain ⟨pre, e, post, heq, hpre, he⟩ := exists_first_match es h hmem
    subst heq
    simp [MemoryChain.erase, eraseAux_found pre e post h hpre he]
  · intro pre e post heq hpre he
    subst heq
    have herase : MemoryChain.erase (pre ++ e :: post) h =
        (true, pre ++ eraseEntry e :: post) := by
      simp [MemoryChain.erase, eraseAux_found pre e post h hpre he]
    refine ⟨by rw [herase], rfl, rfl, rfl, rfl, ?_⟩
    rw [herase]
    have hmap : (pre ++ eraseEntry e :: post).map (fun x => (x.hash, x.prevHash)) =
        (pre ++ e :: post).map (fun x => (x.hash, x.prevHash)) := by
      simp [eraseEntry]
    have hlen : (pre ++ eraseEntry e :: post).length = (pre ++ e :: post).length := by
      simp
    unfold MemoryChain.verify
    rw [hlen]
    exact verifyAux_congr _ _ hmap "GENESIS" 0 _

/-- C3 (witness): erasing the second entry of a concrete two-entry chain. -/
theorem C3_erase_witness :
    sampleEntry1.hash = "h1" ∧
    (MemoryChain.erase [sampleEntry0, sampleEntry1] "h1").2 =
      [sampleEntry0, eraseEntry sampleEntry1] ∧
    MemoryChain.verify (MemoryChain.erase [sampleEntry0, sampleEntry1] "h1").2 =
      MemoryChain.verify [sampleEntry0, sampleEntry1] := by
  have hmain := (C3_erase_preserves_chain [sampleEntry0, sampleEntry1] "h1").2.2
    [sampleEntry0] sampleEntry1 [] rfl (by decide) rfl
  exact ⟨rfl, by simpa using hmain.1, hmain.2.2.2.2.2⟩

theorem verifyAux_total_eq (es : List MemoryEntry) :
    ∀ prev i total, (verifyAux es prev i total).total = total := by
  induction es with
  | nil => intro prev i total; rfl
  | cons e es ih =>
    intro prev i total
    by_cases hc : e.prevHash ≠ prev
    · simp [verifyAux, hc]
    · simp [verifyAux, hc, ih]

theorem verifyAux_valid_eq (es : List MemoryEntry) :
    ∀ prev i total, (verifyAux es prev i total).valid = linkedFromB prev es := by
  induction es with
  | nil => intro prev i total; rfl
  | cons e es ih =>
    intro prev i total
    by_cases hc : e.prevHash = prev
    · simp [verifyAux, linkedFromB, hc, ih]
    · simp [verifyAux, linkedFromB, hc]

theorem verifyAux_of_linked (es : List MemoryEntry) :
    ∀ prev i total, linkedFromB prev es = true →
      verifyAux es prev i total = ⟨true, total, total, none⟩ := by
  induction es with
  | nil => intro prev i total _; rfl
  | cons e es ih =>
    intro prev i total hlink
    simp only [linkedFromB, Bool.and_eq_true, beq_iff_eq] at hlink
    simp [verifyAux, hlink.1, ih e.hash (i + 1) total hlink.2]

theorem verifyAux_first_break (pre : List MemoryEntry) (e : MemoryEntry)
    (post : List MemoryEntry) :
    ∀ prev i total, linkedFromB prev pre = true → e.prevHash ≠ chainEnd prev pre →
      verifyAux (pre ++ e :: post) prev i total =
        ⟨false, total, i + pre.length, some e.hash⟩ := by
  induction pre with
  | nil =>
    intro prev i total _ hbreak
    simp only [chainEnd] at hbreak
    simp [verifyAux, hbreak]
  | cons p ps ih =>
    intro prev i total hlink hbreak
    simp only [linkedFromB, Bool.and_eq_true, beq_iff_eq] at hlink
    simp only [chainEnd] at hbreak
    have hrec := ih p.hash (i + 1) total hlink.2 hbreak
    have harith : i + 1 + ps.length = i + (ps.length + 1) := by omega
    simp only [List.cons_append, verifyAux, hlink.1, ne_eq, not_true_eq_false, if_false,
      List.length_cons]
    rw [← harith]
    exact hrec

/-- C4 (counterexample): a one-record chain whose stored `hash` is the empty
string — certainly not the digest recomputed from `(prev_hash, content,
timestamp)` — and whose `erased` is false still verifies `valid = true`,
because `MemoryChain.verify` checks only `prev_hash` linkage and never
recomputes hashes; the verifier the claim describes reports it invalid. -/
theorem C4_counterexample :
    MemoryChain.verify [forgedEntry] = ⟨true, 1, 1, none⟩ ∧
    forgedEntry.erased = false ∧
    forgedEntry.hash ≠ claimedDigest forgedEntry ∧
    claimedVerify [forgedEntry] = ⟨false, 1, 0, some ""⟩ := by
  refine ⟨by decide, rfl, by decide, by decide⟩

/-- C4 (amended): `verify()` walks the chain checking only `prev_hash`
linkage (`GENESIS` at index 0): `valid` is exactly chain linkage, a linked
chain yields `checked = total` and no `first_invalid`, the first linkage
deviation aborts reporting the offending record's hash and its index as
`checked` — and stored hashes are never recompared, erased or not: the
result depends only on the `hash`/`prevHash` fields of the records. -/
theorem C4_verify_checks_linkage_only (es : List MemoryEntry) :
    (MemoryChain.verify es).total = es.length ∧
    (MemoryChain.verify es).valid = linkedFromB "GENESIS" es ∧
    (linkedFromB "GENESIS" es = true →
      MemoryChain.verify es = ⟨true, es.length, es.length, none⟩) ∧
    (∀ pre e post, es = pre ++ e :: post → linkedFromB "GENESIS" pre = true →
      e.prevHash ≠ chainEnd "GENESIS" pre →
      MemoryChain.verify es = ⟨false, es.length, pre.length, some e.hash⟩) ∧
    (∀ es', es.map (fun x => (x.hash, x.prevHash)) =
        es'.map (fun x => (x.hash, x.prevHash)) →
      MemoryChain.verify es = MemoryChain.verify es') := by
  refine ⟨verifyAux_total_eq es "GENESIS" 0 es.length,
    verifyAux_valid_eq es "GENESIS" 0 es.length, ?_, ?_, ?_⟩
  · intro hlink
    exact verifyAux_of_linked es "GENESIS" 0 es.length hlink
  · intro pre e post heq hlink hbreak
    subst heq
    have := verifyAux_first_break pre e post "GENESIS" 0 (pre ++ e :: post).length
      hlink hbreak
    simpa [MemoryChain.verify] using this
  · intro es' hmap
    have hlen : es.length = es'.length := by
      have := congrArg List.length hmap
      simpa using this
    unfold MemoryChain.verify
    rw [hlen]
    exact verifyAux_congr es es' hmap "GENESIS" 0 es'.length

/-- C4 (witness): the characterization applied at a linked two-entry chain
and at a chain broken at index 1. -/
theorem C4_verify_witness :
    MemoryChain.verify [sampleEntry0, sampleEntry1] = ⟨true, 2, 2, none⟩ ∧
    MemoryChain.verify [sampleEntry0, { sampleEntry1 with prevHash := "zz" }] =
      ⟨false, 2, 1, some "h1"⟩ :=
  ⟨(C4_verify_checks_linkage_only [sampleEntry0, sampleEntry1]).2.2.1 (by decide),
   (C4_verify_checks_linkage_only
      [sampleEntry0, { sampleEntry1 with prevHash := "zz" }]).2.2.2.1
     [sampleEntry0] { sampleEntry1 with prevHash := "zz" } [] rfl (by decide) (by decide)⟩

end Gateway

namespace Gateway

theorem rlGet_update_self (m : RLStore) (k : String) (v : Nat)
    (h : (rlGet m k).isSome) :
    rlGet (m.map (fun p => if p.1 == k then (k, v) else p)) k = some v := by
  induction m with
  | nil => simp [rlGet] at h
  | cons p ps ih =>
    by_cases hk : p.1 == k
    · simp [rlGet, List.find?, hk]
    · have h' : (rlGet ps k).isSome := by
        simpa [rlGet, List.find?, hk] using h
      simpa [rlGet, List.find?, hk] using ih h'

theorem rlGet_append_self (m : RLStore) (k : String) (v : Nat)
    (h : rlGet m k = none) :
    rlGet (m ++ [(k, v)]) k = some v := by
  induction m with
  | nil => simp [rlGet, List.find?]
  | cons p ps ih =>
    by_cases hk : p.1 == k
    · simp [rlGet, List.find?, hk] at h
    · have h' : rlGet ps k = none := by
        simpa [rlGet, List.find?, hk] using h
      simpa [rlGet, List.find?, hk] using ih h'

theorem rlGet_rlPut_self (m : RLStore) (k : String) (v : Nat) :
    rlGet (rlPut m k v) k = some v := by
  unfold rlPut
  by_cases hfind : ((m.find? (fun p => p.1 == k)).isSome)
  · rw [if_pos hfind]
    exact rlGet_update_self m k v (by simpa [rlGet, Option.isSome_map] using hfind)
  · rw [if_neg hfind]
    refine rlGet_append_self m k v ?_
    simp only [rlGet]
    rcases hf : m.find? (fun p => p.1 == k) with _ | p
    · rw [hf]; rfl
    · exact absurd (by simp [hf]) hfind

theorem defaultWindows_seconds (route : String) :
    (defaultWindows route).windowSeconds = 60 := by
  unfold defaultWindows
  split_ifs <;> rfl

/-- One call inside window `w`: allow and increment below the limit, deny
with the ceiling retry time at or above it. -/
theorem checkRateLimitKV_step (ip route : String) (t : Nat) (m : RLStore) (w : Nat)
    (hw : t / ((defaultWindows route).windowSeconds * 1000) = w) :
    ((rlGet m (rlKey ip route (w * ((defaultWindows route).windowSeconds * 1000)))).getD 0 <
        (defaultWindows route).limit →
      checkRateLimitKV ip route t m =
        (⟨true, (defaultWindows route).limit -
            (rlGet m (rlKey ip route (w * ((defaultWindows route).windowSeconds * 1000)))).getD 0 - 1,
          w * ((defaultWindows route).windowSeconds * 1000) +
            (defaultWindows route).windowSeconds * 1000, none⟩,
         rlPut m (rlKey ip route (w * ((defaultWindows route).windowSeconds * 1000)))
           ((rlGet m (rlKey ip route (w * ((defaultWindows route).windowSeconds * 1000)))).getD 0 + 1))) ∧
    ((defaultWindows route).limit ≤
        (rlGet m (rlKey ip route (w * ((defaultWindows route).windowSeconds * 1000)))).getD 0 →
      checkRateLimitKV ip route t m =
        (⟨false, 0,
          w * ((defaultWindows route).windowSeconds * 1000) +
            (defaultWindows route).windowSeconds * 1000,
          some ((w * ((defaultWindows route).windowSeconds * 1000) +
            (defaultWindows route).windowSeconds * 1000 - t + 999) / 1000)⟩, m)) := by
  constructor
  · intro hlt
    simp only [checkRateLimitKV, hw]
    rw [if_neg (by omega)]
  · intro hge
    simp only [checkRateLimitKV, hw]
    rw [if_pos (by omega)]

theorem runRateLimit_all_allowed (ip route : String) (w : Nat) :
    ∀ (ts : List Nat) (m : RLStore) (c : Nat),
      (∀ t ∈ ts, t / ((defaultWindows route).windowSeconds * 1000) = w) →
      (rlGet m (rlKey ip route (w * ((defaultWindows route).windowSeconds * 1000)))).getD 0 = c →
      c + ts.length ≤ (defaultWindows route).limit →
      (∀ r ∈ (runRateLimit ip route ts m).1, r.allowed = true) ∧
      (rlGet ((runRateLimit ip route ts m).2)
        (rlKey ip route (w * ((defaultWindows route).windowSeconds * 1000)))).getD 0 =
        c + ts.length := by
  intro ts
  induction ts with
  | nil =>
    intro m c _ hc _
    simp [runRateLimit, hc]
  | cons t ts ih =>
    intro m c hw hc hle
    have hwt := hw t (List.mem_cons_self t ts)
    have hlt : (rlGet m
        (rlKey ip route (w * ((defaultWindows route).windowSeconds * 1000)))).getD 0 <
        (defaultWindows route).limit := by
      rw [hc]; simp only [List.length_cons] at hle; omega
    have hstep := (checkRateLimitKV_step ip route t m w hwt).1 hlt
    rw [hc] at hstep
    have hput : (rlGet (rlPut m
        (rlKey ip route (w * ((defaultWindows route).windowSeconds * 1000))) (c + 1))
        (rlKey ip route (w * ((defaultWindows route).windowSeconds * 1000)))).getD 0 = c + 1 := by
      rw [rlGet_rlPut_self]
      rfl
    have ihres := ih (rlPut m
        (rlKey ip route (w * ((defaultWindows route).windowSeconds * 1000))) (c + 1))
      (c + 1) (fun x hx => hw x (List.mem_cons_of_mem _ hx)) hput (by simp at hle ⊢; omega)
    constructor
    · intro r hr
      simp only [runRateLimit, hstep] at hr
      rcases List.mem_cons.mp hr with rfl | hr'
      · rfl
      · exact ihres.1 r hr'
    · simp only [runRateLimit, hstep]
      have := ihres.2
      simpa [Nat.add_assoc, Nat.add_comm 1 ts.length] using this

theorem runRateLimit_append (ip route : String) (ts us : List Nat) (m : RLStore) :
    runRateLimit ip route (ts ++ us) m =
      ((runRateLimit ip route ts m).1 ++
         (runRateLimit ip route us (runRateLimit ip route ts m).2).1,
       (runRateLimit ip route us (runRateLimit ip route ts m).2).2) := by
  induction ts generalizing m with
  | nil => simp [runRateLimit]
  | cons t ts ih =>
    simp only [List.cons_append, runRateLimit, List.append_eq, ih]

/-- C5: starting from a fresh window for `(client, route)`, every schedule
of at most `limit` requests inside the window is fully allowed, and after
exactly `limit` allowed requests the next request in the same window is
denied with `retry_after = ceil((window_end − now) / 1000) > 0`. -/
theorem C5_rate_limit_window (ip route : String) (w : Nat) (ts : List Nat) (tlast : Nat)
    (m : RLStore)
    (hw : ∀ t ∈ ts, t / ((defaultWindows route).windowSeconds * 1000) = w)
    (hlast : tlast / ((defaultWindows route).windowSeconds * 1000) = w)
    (hfresh : rlGet m (rlKey ip route (w * ((defaultWindows route).windowSeconds * 1000))) = none) :
    (ts.length ≤ (defaultWindows route).limit →
      ∀ r ∈ (runRateLimit ip route ts m).1, r.allowed = true) ∧
    (ts.length = (defaultWindows route).limit →
      (runRateLimit ip route (ts ++ [tlast]) m).1.getLast? =
        some ⟨false, 0,
          w * ((defaultWindows route).windowSeconds * 1000) +
            (defaultWindows route).windowSeconds * 1000,
          some ((w * ((defaultWindows route).windowSeconds * 1000) +
            (defaultWindows route).windowSeconds * 1000 - tlast + 999) / 1000)⟩ ∧
      0 < (w * ((defaultWindows route).windowSeconds * 1000) +
            (defaultWindows route).windowSeconds * 1000 - tlast + 999) / 1000) := by
  have hfresh0 : (rlGet m
      (rlKey ip route (w * ((defaultWindows route).windowSeconds * 1000)))).getD 0 = 0 := by
    rw [hfresh]; rfl
  constructor
  · intro hlen
    exact (runRateLimit_all_allowed ip route w ts m 0 hw hfresh0 (by omega)).1
  · intro hlen
    have hrun := (runRateLimit_all_allowed ip route w ts m 0 hw hfresh0 (by omega)).2
    have hstep := (checkRateLimitKV_step ip route tlast
      (runRateLimit ip route ts m).2 w hlast).2 (by rw [hrun]; omega)
    rw [runRateLimit_append]
    constructor
    · simp only [runRateLimit, hstep]
      exact List.getLast?_concat _
    · have hms : (defaultWindows route).windowSeconds * 1000 = 60000 := by
        rw [defaultWindows_seconds]
      have htlt : tlast < w * ((defaultWindows route).windowSeconds * 1000) +
          (defaultWindows route).windowSeconds * 1000 := by
        have hpos : 0 < (defaultWindows route).windowSeconds * 1000 := by omega
        have := Nat.lt_succ_of_le (Nat.le_of_eq hlast.symm)
        have hdiv : tlast / ((defaultWindows route).windowSeconds * 1000) < w + 1 := by
          omega
        have := (Nat.div_lt_iff_lt_mul hpos).mp hdiv
        calc tlast < (w + 1) * ((defaultWindows route).windowSeconds * 1000) := this
          _ = w * ((defaultWindows route).windowSeconds * 1000) +
              (defaultWindows route).windowSeconds * 1000 := by ring
      have h1 : 1 ≤ (w * ((defaultWindows route).windowSeconds * 1000) +
          (defaultWindows route).windowSeconds * 1000 - tlast + 999) / 1000 := by
        rw [Nat.le_div_iff_mul_le (by omega)]
        omega
      omega

/-- C5 (witness): route `agents` (limit 30): 30 requests at time 0 are all
allowed and the 31st is denied with `retry_after = 60`. -/
theorem C5_rate_limit_witness :
    (List.replicate 30 (0 : Nat)).length = (defaultWindows "agents").limit ∧
    (runRateLimit "a" "agents" (List.replicate 30 0 ++ [0]) []).1.getLast? =
      some ⟨false, 0, 60000, some 60⟩ := by
  refine ⟨by decide, ?_⟩
  have := (C5_rate_limit_window "a" "agents" 0 (List.replicate 30 0) 0 []
    (by decide) (by decide) rfl).2 (by decide)
  exact this.1

end Gateway


namespace Gateway

theorem priorityRank_inj (p q : Priority) (h : priorityRank p = priorityRank q) : p = q := by
  cases p <;> cases q <;> simp_all [priorityRank]

theorem count_filter_rank (l : List Task) (a : Task) (k : Nat) :
    (l.filter (fun x => priorityRank x.priority == k)).count a =
      if priorityRank a.priority == k then l.count a else 0 := by
  by_cases h : priorityRank a.priority == k
  · rw [if_pos h]
    refine List.count_filter ?_
    exact h
  · rw [if_neg h]
    refine List.count_eq_zero.mpr ?_
    intro hmem
    exact h (List.mem_filter.mp hmem).2

theorem sortByPriorityDesc_perm (l : List Task) :
    List.Perm (sortByPriorityDesc l) l := by
  rw [List.perm_iff_count]
  intro a
  simp only [sortByPriorityDesc, List.count_append, count_filter_rank]
  cases a.priority <;> simp [priorityRank]

theorem mem_block_rank (l : List Task) (k : Nat) (t : Task)
    (ht : t ∈ l.filter (fun x => priorityRank x.priority == k)) :
    priorityRank t.priority = k := by
  have := (List.mem_filter.mp ht).2
  simpa using this

theorem pairwise_block (l : List Task) (k : Nat)
    (hmono : l.Pairwise (fun a b => strLe a.createdAt b.createdAt = true)) :
    (l.filter (fun x => priorityRank x.priority == k)).Pairwise listOrder := by
  have hsub : (l.filter (fun x => priorityRank x.priority == k)).Pairwise
      (fun a b => strLe a.createdAt b.createdAt = true) :=
    hmono.sublist (List.filter_sublist l)
  refine hsub.imp_of_mem ?_
  intro a b ha hb hle
  right
  refine ⟨?_, hle⟩
  exact priorityRank_inj _ _ ((mem_block_rank l k a ha).trans (mem_block_rank l k b hb).symm)

theorem cross_block_order (l : List Task) (j k : Nat) (hjk : k < j) (a b : Task)
    (ha : a ∈ l.filter (fun x => priorityRank x.priority == j))
    (hb : b ∈ l.filter (fun x => priorityRank x.priority == k)) :
    listOrder a b := by
  left
  rw [mem_block_rank l j a ha, mem_block_rank l k b hb]
  exact hjk

theorem sortByPriorityDesc_pairwise (l : List Task)
    (hmono : l.Pairwise (fun a b => strLe a.createdAt b.createdAt = true)) :
    (sortByPriorityDesc l).Pairwise listOrder := by
  have h4 := pairwise_block l 4 hmono
  have h3 := pairwise_block l 3 hmono
  have h2 := pairwise_block l 2 hmono
  have h1 := pairwise_block l 1 hmono
  rw [sortByPriorityDesc, List.append_assoc, List.append_assoc]
  refine List.pairwise_append.mpr ⟨h4, ?_, ?_⟩
  · refine List.pairwise_append.mpr ⟨h3, ?_, ?_⟩
    · refine List.pairwise_append.mpr ⟨h2, h1, ?_⟩
      intro a ha b hb
      exact cross_block_order l 2 1 (by omega) a b ha hb
    · intro a ha b hb
      rcases List.mem_append.mp hb with hb' | hb'
      · exact cross_block_order l 3 2 (by omega) a b ha hb'
      · exact cross_block_order l 3 1 (by omega) a b ha hb'
  · intro a ha b hb
    rcases List.mem_append.mp hb with hb' | hb'
    · exact cross_block_order l 4 3 (by omega) a b ha hb'
    rcases List.mem_append.mp hb' with hb'' | hb''
    · exact cross_block_order l 4 2 (by omega) a b ha hb''
    · exact cross_block_order l 4 1 (by omega) a b ha hb''

/-- C9: `list(filters, limit, offset)` returns exactly the window
`slice(offset, offset + limit)` of the stably priority-sorted matching
tasks, with `total` the number of matching tasks before pagination; every
returned task matches the filters; and — given that creation times are
non-decreasing in insertion order, which the wall clock provides — the
sorted sequence and the returned page are ordered by priority descending
(critical > high > medium > low) with ties in creation-time ascending
order. -/
theorem C9_task_listing (store : List Task) (filters : TaskFilters) (limit offset : Nat)
    (hmono : store.Pairwise (fun a b => strLe a.createdAt b.createdAt = true)) :
    TaskStore.list store filters limit offset =
      (((sortByPriorityDesc (store.filter (taskMatches filters))).drop offset).take limit,
       (store.filter (taskMatches filters)).length) ∧
    List.Perm (sortByPriorityDesc (store.filter (taskMatches filters)))
      (store.filter (taskMatches filters)) ∧
    (∀ t ∈ (TaskStore.list store filters limit offset).1, taskMatches filters t = true) ∧
    (sortByPriorityDesc (store.filter (taskMatches filters))).Pairwise listOrder ∧
    (TaskStore.list store filters limit offset).1.Pairwise listOrder := by
  have hmono' : (store.filter (taskMatches filters)).Pairwise
      (fun a b => strLe a.createdAt b.createdAt = true) :=
    hmono.sublist (List.filter_sublist store)
  have hpair := sortByPriorityDesc_pairwise (store.filter (taskMatches filters)) hmono'
  have hsubpage : List.Sublist
      (((sortByPriorityDesc (store.filter (taskMatches filters))).drop offset).take limit)
      (sortByPriorityDesc (store.filter (taskMatches filters))) :=
    (List.take_sublist _ _).trans (List.drop_sublist _ _)
  refine ⟨rfl, sortByPriorityDesc_perm _, ?_, hpair, hpair.sublist hsubpage⟩
  intro t ht
  have hmem : t ∈ sortByPriorityDesc (store.filter (taskMatches filters)) :=
    hsubpage.mem ht
  have hmem' : t ∈ store.filter (taskMatches filters) :=
    (sortByPriorityDesc_perm _).mem_iff.mp hmem
  exact (List.mem_filter.mp hmem').2

/-- C9 (witness): listing a concrete three-task store created in timestamp
order returns the critical task first; the page is ordered accordingly. -/
theorem C9_task_listing_witness :
    ([sampleTask, lowTask, criticalTask].Pairwise
      (fun a b => strLe a.createdAt b.createdAt = true)) ∧
    (TaskStore.list [sampleTask, lowTask, criticalTask] {} 50 0).1.Pairwise listOrder ∧
    (TaskStore.list [sampleTask, lowTask, criticalTask] {} 50 0).2 = 3 := by
  have hmono : ([sampleTask, lowTask, criticalTask].Pairwise
      (fun a b => strLe a.createdAt b.createdAt = true)) := by decide
  have hmain := C9_task_listing [sampleTask, lowTask, criticalTask] {} 50 0 hmono
  exact ⟨hmono, hmain.2.2.2.2, by decide⟩

end Gateway

namespace Gateway

/-- C1: provider credentials never appear in what the gateway returns or
records. The client response is a function of the upstream response alone
(two credential values with the same upstream behaviour give identical
responses — headers, status, and body); the response body is the verbatim
upstream body, so the credential occurs there only if the upstream sent
it; every response header value is a CORS constant or the upstream
content type; the audit records of the chat route carry only the event
literal, client id, model, message count, and stream flag; the 502 error
body carries only `provider_error` and the error message; and the auth
failure messages are fixed literals with `error = "unauthorized"`,
independent of the configured secret. -/
theorem C1_credentials_never_leak (key key' : String)
    (net : UpstreamRequest → UpstreamResponse)
    (reqMethod reqBody baseUrl path : String)
    (cors extraHeaders : List (String × String))
    (clientId model errMsg : String) (messageCount : Nat) (stream : Bool) :
    (net (buildUpstreamRequest reqMethod reqBody (some key) baseUrl path extraHeaders) =
       net (buildUpstreamRequest reqMethod reqBody (some key') baseUrl path extraHeaders) →
     proxyToProvider net reqMethod reqBody (some key) baseUrl path cors extraHeaders =
       proxyToProvider net reqMethod reqBody (some key') baseUrl path cors extraHeaders) ∧
    ((proxyToProvider net reqMethod reqBody (some key) baseUrl path cors extraHeaders).body =
      (net (buildUpstreamRequest reqMethod reqBody (some key) baseUrl path
        extraHeaders)).body) ∧
    (¬ occursIn key (net (buildUpstreamRequest reqMethod reqBody (some key) baseUrl path
        extraHeaders)).body →
      ¬ occursIn key (proxyToProvider net reqMethod reqBody (some key) baseUrl path cors
        extraHeaders).body) ∧
    ((∀ v ∈ cors.map Prod.snd, ¬ occursIn key v) →
      ¬ occursIn key ((net (buildUpstreamRequest reqMethod reqBody (some key) baseUrl path
        extraHeaders)).contentType.getD "application/json") →
      ∀ nv ∈ (proxyToProvider net reqMethod reqBody (some key) baseUrl path cors
        extraHeaders).headers, ¬ occursIn key nv.2) ∧
    (¬ occursIn key clientId → ¬ occursIn key model → ¬ occursIn key "chat" →
      ∀ s ∈ (chatAudit clientId model messageCount stream).strings, ¬ occursIn key s) ∧
    (¬ occursIn key errMsg → ¬ occursIn key model → ¬ occursIn key "chat_error" →
      ∀ s ∈ (chatErrorAudit errMsg model).strings, ¬ occursIn key s) ∧
    ((chatErrorResponse errMsg).1 = 502 ∧
     (chatErrorResponse errMsg).2.error = "provider_error" ∧
     (chatErrorResponse errMsg).2.message = errMsg) ∧
    (∀ secret header verifySig parsePayload now s e msg,
      requireAuth (some secret) header verifySig parsePayload now = .deny s e msg →
      s = 401 ∧ e = "unauthorized" ∧
      (msg = "Invalid or expired token" ∨
       msg = "Missing Authorization: Bearer <token>")) := by
  refine ⟨?_, rfl, ?_, ?_, ?_, ?_, ⟨rfl, rfl, rfl⟩, ?_⟩
  · intro heq
    unfold proxyToProvider
    rw [heq]
  · intro hup
    exact hup
  · intro hcors hct nv hnv
    simp only [proxyToProvider, relayResponse, List.mem_append] at hnv
    rcases hnv with hmem | hmem
    · exact hcors nv.2 (List.mem_map_of_mem Prod.snd hmem)
    · rcases List.mem_singleton.mp hmem with rfl
      exact hct
  · intro h1 h2 h3 s hs
    simp only [chatAudit, ChatAuditRecord.strings, List.mem_cons,
      List.not_mem_nil, or_false] at hs
    rcases hs with rfl | rfl | rfl
    · exact h3
    · exact h1
    · exact h2
  · intro h1 h2 h3 s hs
    simp only [chatErrorAudit, ChatErrorAuditRecord.strings, List.mem_cons,
      List.not_mem_nil, or_false] at hs
    rcases hs with rfl | rfl | rfl
    · exact h3
    · exact h1
    · exact h2
  · intro secret header verifySig parsePayload now s e msg hdeny
    have hdeny' : (if jsStartsWith (header.getD "") "Bearer " = true then
        (match verifyJWT (strDrop (header.getD "") 7) secret verifySig parsePayload now with
         | none => AuthOutcome.deny 401 "unauthorized" "Invalid or expired token"
         | some payload => AuthOutcome.ok payload)
      else AuthOutcome.deny 401 "unauthorized" "Missing Authorization: Bearer <token>") =
        AuthOutcome.deny s e msg := hdeny
    by_cases hb : jsStartsWith (header.getD "") "Bearer " = true
    · rw [if_pos hb] at hdeny'
      cases hv : verifyJWT (strDrop (header.getD "") 7) secret verifySig parsePayload now with
      | none =>
        rw [hv] at hdeny'
        simp only [AuthOutcome.deny.injEq] at hdeny'
        exact ⟨hdeny'.1.symm, hdeny'.2.1.symm, Or.inl hdeny'.2.2.symm⟩
      | some p =>
        rw [hv] at hdeny'
        cases hdeny'
    · rw [if_neg hb] at hdeny'
      simp only [AuthOutcome.deny.injEq] at hdeny'
      exact ⟨hdeny'.1.symm, hdeny'.2.1.symm, Or.inr hdeny'.2.2.symm⟩

/-- C1 (witness): a concrete credential, upstream, and chat audit record:
the credential occurs in none of the client-visible outputs. -/
theorem C1_credentials_witness :
    ¬ occursIn "sk-live-abc123XYZ"
      (net0 (buildUpstreamRequest "POST" "hello" (some "sk-live-abc123XYZ")
        "https://api.openai.com" "/v1/chat/completions" [])).body ∧
    ¬ occursIn "sk-live-abc123XYZ"
      (proxyToProvider net0 "POST" "hello" (some "sk-live-abc123XYZ")
        "https://api.openai.com" "/v1/chat/completions"
        [("Access-Control-Allow-Origin", "*")] []).body ∧
    (∀ s ∈ (chatAudit "agent-1" "gpt-4o" 2 false).strings,
      ¬ occursIn "sk-live-abc123XYZ" s) := by
  have hbody : ¬ occursIn "sk-live-abc123XYZ"
      (net0 (buildUpstreamRequest "POST" "hello" (some "sk-live-abc123XYZ")
        "https://api.openai.com" "/v1/chat/completions" [])).body := by decide
  refine ⟨hbody, ?_, ?_⟩
  · exact (C1_credentials_never_leak "sk-live-abc123XYZ" "k" net0 "POST" "hello"
      "https://api.openai.com" "/v1/chat/completions"
      [("Access-Control-Allow-Origin", "*")] [] "agent-1" "gpt-4o" "err" 2 false).2.2.1 hbody
  · exact (C1_credentials_never_leak "sk-live-abc123XYZ" "k" net0 "POST" "hello"
      "https://api.openai.com" "/v1/chat/completions"
      [("Access-Control-Allow-Origin", "*")] [] "agent-1" "gpt-4o" "err" 2 false).2.2.2.2.1
      (by decide) (by decide) (by decide)

end Gateway
